import Mathlib

/-!
Shallow embedding of the chain-monitor ETH balance reconciliation engine
(`internal/logic/cross_chain/messenger_cross_chain.go` together with the
ORM write path in `internal/orm` / `src/unnamed/part_000`), and proofs of
the frozen claims about it.
-/

namespace ChainMonitor

/-- The two chain layers (`types.LayerType` in the source). -/
inductive Layer where
  | layer1
  | layer2
deriving DecidableEq, Repr

/-- Modelled from the spec: the `types` package is not under `src/`; the event
kind constants (`types.L1SentMessage`, `types.L1RelayedMessage`,
`types.L2SentMessage`, `types.L2RelayedMessage`) are distinct nonzero
integers, with `0` meaning "unset" (the source compares `L1EventType != 0`). -/
def L1SentMessage : Nat := 1

/-- Modelled from the spec: see `L1SentMessage`. -/
def L1RelayedMessage : Nat := 2

/-- Modelled from the spec: see `L1SentMessage`. -/
def L2SentMessage : Nat := 3

/-- Modelled from the spec: see `L1SentMessage`. -/
def L2RelayedMessage : Nat := 4

/-- Modelled from the spec: `types.ETHAmountStatusTypeSet`, the marker that a
record's ETH amount has been resolved by ingestion; a distinct constant. -/
def ETHAmountStatusTypeSet : Nat := 1

/-- Modelled from the spec: `types.ETHBalanceStatusTypeInvalid`, the
"Unchecked" balance-check status of the data model. -/
def ETHBalanceStatusTypeInvalid : Nat := 1

/-- Modelled from the spec: `types.ETHBalanceStatusTypeValid`, the "Valid"
balance-check status constant the engine writes after validation. -/
def ETHBalanceStatusTypeValid : Nat := 2

/-- One transfer record (`orm.MessageMatch` restricted to the fields the
balance engine reads: id, per-layer event kind and block number, the ETH
amount string and its resolution status). -/
structure MessageMatch where
  id : Nat
  l1EventType : Nat
  l1BlockNumber : Nat
  l2EventType : Nat
  l2BlockNumber : Nat
  ethAmount : String
  ethAmountStatus : Nat
deriving DecidableEq, Repr, Inhabited

/-- Block number of a record on the layer under check (the source selects
`L1BlockNumber` or `L2BlockNumber` by the `layer` switch). -/
def blockOf (layer : Layer) (m : MessageMatch) : Nat :=
  match layer with
  | .layer1 => m.l1BlockNumber
  | .layer2 => m.l2BlockNumber

/-- Event kind of a record on the layer under check. -/
def eventOf (layer : Layer) (m : MessageMatch) : Nat :=
  match layer with
  | .layer1 => m.l1EventType
  | .layer2 => m.l2EventType

/-- The `SentMessage` constant for a layer. -/
def sentOf (layer : Layer) : Nat :=
  match layer with
  | .layer1 => L1SentMessage
  | .layer2 => L2SentMessage

/-- The `RelayedMessage` constant for a layer. -/
def relayedOf (layer : Layer) : Nat :=
  match layer with
  | .layer1 => L1RelayedMessage
  | .layer2 => L2RelayedMessage

/-- Base-10 digit accumulation used by `setStringBase10`. -/
def parseDigits : List Char → Nat → Option Nat
  | [], acc => some acc
  | c :: rest, acc =>
    if c.isDigit then parseDigits rest (acc * 10 + (c.toNat - 48)) else none

/-- Go's `new(big.Int).SetString(s, 10)`: an optional sign followed by at
least one base-10 digit; anything else fails. -/
def setStringBase10 (s : String) : Option Int :=
  match s.toList with
  | [] => none
  | '-' :: rest =>
    if rest = [] then none else (parseDigits rest 0).map (fun n => -(n : Int))
  | '+' :: rest =>
    if rest = [] then none else (parseDigits rest 0).map (fun n => (n : Int))
  | cs => (parseDigits cs 0).map (fun n => (n : Int))

/-- The signed delta a record contributes on a layer: the source adds the
amount on a `SentMessage` and subtracts it on a `RelayedMessage` (two
independent `if`s over the same event field). -/
def signedDelta (layer : Layer) (m : MessageMatch) (amount : Int) : Int :=
  (if eventOf layer m = sentOf layer then amount else 0) +
    (if eventOf layer m = relayedOf layer then -amount else 0)

/-- Parse every record's `ETHAmount` in order; the source aborts on the
first undecodable amount. -/
def parseAmounts : List MessageMatch → Option (List (MessageMatch × Int))
  | [] => some []
  | m :: rest =>
    match setStringBase10 m.ethAmount with
    | none => none
    | some a => (parseAmounts rest).map (fun ps => (m, a) :: ps)

/-- The running fold of `checkBalance`: `balanceDiff` accumulated over the
records in order. -/
def balanceDiff (layer : Layer) (pairs : List (MessageMatch × Int)) : Int :=
  pairs.foldl (fun acc p => acc + signedDelta layer p.1 p.2) 0

/-- `checkBalance` from the source: parse each amount (error on failure),
accumulate the signed deltas, and compare `startBalance + diff` with the
actual end balance; returns `(ok, expectedEndBalance, endBalance)`,
`none` standing for the error return. -/
def checkBalance (layer : Layer) (startBalance endBalance : Int)
    (messages : List MessageMatch) : Option (Bool × Int × Int) :=
  match parseAmounts messages with
  | none => none
  | some pairs =>
    let expected := startBalance + balanceDiff layer pairs
    some (decide (expected = endBalance), expected, endBalance)

/-- Net signed delta of block `b` over a parsed record list: the entry
`blockNumberAmountMap[b]` that `computeBlockBalance` builds. -/
def blockNet (layer : Layer) (b : Nat) : List (MessageMatch × Int) → Int
  | [] => 0
  | p :: rest =>
    (if blockOf layer p.1 = b then signedDelta layer p.1 p.2 else 0) +
      blockNet layer b rest

/-- Sum of signed deltas of all records whose block number is ≤ `b`. -/
def deltaSumLE (layer : Layer) (b : Nat) : List (MessageMatch × Int) → Int
  | [] => 0
  | p :: rest =>
    (if blockOf layer p.1 ≤ b then signedDelta layer p.1 p.2 else 0) +
      deltaSumLE layer b rest

/-- Sum of signed deltas of all records whose block number is < `b`. -/
def deltaSumLT (layer : Layer) (b : Nat) : List (MessageMatch × Int) → Int
  | [] => 0
  | p :: rest =>
    (if blockOf layer p.1 < b then signedDelta layer p.1 p.2 else 0) +
      deltaSumLT layer b rest

/-- One row of the commit set `computeBlockBalance` emits: the
`orm.MessageMatch` struct the engine fills with the derived per-layer
balance and the `Valid` status (other layer's fields keep Go zero values). -/
structure BalanceUpdate where
  id : Nat
  l1Balance : Int
  l1Status : Nat
  l2Balance : Int
  l2Status : Nat
deriving DecidableEq, Repr

/-- The update struct built per record in `computeBlockBalance`: the layer's
balance field receives the running balance and the layer's status field the
constant `Valid`. -/
def mkUpdate (layer : Layer) (i : Nat) (bal : Int) : BalanceUpdate :=
  match layer with
  | .layer1 =>
    { id := i, l1Balance := bal, l1Status := ETHBalanceStatusTypeValid,
      l2Balance := 0, l2Status := 0 }
  | .layer2 =>
    { id := i, l1Balance := 0, l1Status := 0,
      l2Balance := bal, l2Status := ETHBalanceStatusTypeValid }

/-- The derived balance field of an update on the layer under check. -/
def updateBalance (layer : Layer) (u : BalanceUpdate) : Int :=
  match layer with
  | .layer1 => u.l1Balance
  | .layer2 => u.l2Balance

/-- The derived status field of an update on the layer under check. -/
def updateStatus (layer : Layer) (u : BalanceUpdate) : Nat :=
  match layer with
  | .layer1 => u.l1Status
  | .layer2 => u.l2Status

/-- The walk of `computeBlockBalance`: iterate the records in list order
carrying `lastBlockBalance` and `lastBlockNumber` (seeded with 0); when a
record's block differs from `lastBlockNumber`, add that block's net delta
from the block map before emitting the record's update. -/
def walkUpdates (layer : Layer) (allPairs : List (MessageMatch × Int)) :
    List (MessageMatch × Int) → Int → Nat → List BalanceUpdate
  | [], _, _ => []
  | p :: rest, lastBalance, lastBlock =>
    let b := blockOf layer p.1
    let bal :=
      if b ≠ lastBlock then lastBalance + blockNet layer b allPairs
      else lastBalance
    mkUpdate layer p.1.id bal :: walkUpdates layer allPairs rest bal b

/-- Insertion step of the sort-by-id the source performs with `sort.Slice`
before opening the transaction. -/
def insertByID (u : BalanceUpdate) : List BalanceUpdate → List BalanceUpdate
  | [] => [u]
  | v :: vs => if u.id < v.id then u :: v :: vs else v :: insertByID u vs

/-- Sort the commit set by record id ascending (the source's
`sort.Slice(updateETHMessageMatches, …ID < …ID)`). -/
def sortByID : List BalanceUpdate → List BalanceUpdate
  | [] => []
  | u :: us => insertByID u (sortByID us)

/-- `computeBlockBalance` from the source: build the per-block net delta map
(aborting on an undecodable amount), walk the records deriving each one's
running balance and `Valid` status, and sort the resulting commit set by id. -/
def computeBlockBalance (layer : Layer) (messages : List MessageMatch)
    (messengerETHBalance : Int) : Option (List BalanceUpdate) :=
  match parseAmounts messages with
  | none => none
  | some pairs =>
    some (sortByID (walkUpdates layer pairs pairs messengerETHBalance 0))

/-- The pair of column writes one call of the ORM's `UpdateETHBalance`
issues for the layer under check. -/
structure RowWrite where
  id : Nat
  balanceCol : Int
  statusCol : Int
deriving DecidableEq, Repr

/-- The ORM's `UpdateETHBalance` (`src/unnamed/part_000`): for either layer it
writes `messageMatch.L?MessengerETHBalance` into the balance column AND into
the `l?_eth_balance_status` column — the status struct field is ignored. -/
def UpdateETHBalance (layer : Layer) (u : BalanceUpdate) : RowWrite :=
  match layer with
  | .layer1 => { id := u.id, balanceCol := u.l1Balance, statusCol := u.l1Balance }
  | .layer2 => { id := u.id, balanceCol := u.l2Balance, statusCol := u.l2Balance }

/-- A stored row of the `message_match` table, restricted to the derived
per-layer balance and status columns. -/
structure StoredRecord where
  id : Nat
  l1BalanceCol : Int
  l1StatusCol : Int
  l2BalanceCol : Int
  l2StatusCol : Int
deriving DecidableEq, Repr

/-- Apply one `UpdateETHBalance` row write to the store (the `WHERE id = ?`
update of the matching rows' two columns for the layer). -/
def applyRowWrite (layer : Layer) (s : List StoredRecord) (u : BalanceUpdate) :
    List StoredRecord :=
  let w := UpdateETHBalance layer u
  s.map (fun r =>
    if r.id = w.id then
      match layer with
      | .layer1 => { r with l1BalanceCol := w.balanceCol, l1StatusCol := w.statusCol }
      | .layer2 => { r with l2BalanceCol := w.balanceCol, l2StatusCol := w.statusCol }
    else r)

/-- The transaction body of `computeBlockBalance`: apply the updates in list
order, returning the first row error (`fail` injects the environment's
possible per-row update failures). -/
def txnLoop (layer : Layer) (fail : Nat → Bool) :
    List StoredRecord → List BalanceUpdate → Except Unit (List StoredRecord)
  | s, [] => Except.ok s
  | s, u :: us =>
    if fail u.id then Except.error ()
    else txnLoop layer fail (applyRowWrite layer s u) us

/-- Modelled from the spec: the Message Store's "atomic multi-row update
support" (gorm's `db.Transaction`, an external collaborator) — if the body
returns an error the whole transaction is rolled back and the store is
unchanged, otherwise the body's writes are kept. -/
def runCommit (layer : Layer) (fail : Nat → Bool) (s : List StoredRecord)
    (us : List BalanceUpdate) : List StoredRecord :=
  match txnLoop layer fail s us with
  | Except.ok s2 => s2
  | Except.error _ => s

/-- The truncation-point scan of `CheckETHBalance`: the first record of the
refetched span whose `ETHAmountStatus` is not `Set`. -/
def firstUnresolved (msgs : List MessageMatch) : Option MessageMatch :=
  msgs.find? (fun m => m.ethAmountStatus ≠ ETHAmountStatusTypeSet)

/-- The `truncateBlockNumber` local of `CheckETHBalance`: the block number of
the first unresolved record, or `0` (its Go zero value) when every record is
resolved. -/
def truncateBlockNumberOf (layer : Layer) (msgs : List MessageMatch) : Nat :=
  match firstUnresolved msgs with
  | some f => blockOf layer f
  | none => 0

/-- The retained window of `CheckETHBalance`: all records when
`truncateBlockNumber == 0` ("not need to truncate"), else exactly the
records with block number strictly below the truncation point. -/
def truncatedMessageMatches (layer : Layer) (msgs : List MessageMatch) :
    List MessageMatch :=
  let t := truncateBlockNumberOf layer msgs
  if t = 0 then msgs
  else msgs.filter (fun m => blockOf layer m < t)

/-- `ethBalanceGap` from the source. -/
def ethBalanceGap : Nat := 50

/-- Block number of the record at index `i` (Go's `messages[i]` block
selection inside the bisector loops). -/
def blockAt (layer : Layer) (msgs : List MessageMatch) (i : Nat) : Nat :=
  blockOf layer (msgs.getD i default)

/-- The anchor scan of `checkBlockBalanceOneByOne`: walk the records in
order, querying the oracle for each record's block balance, skipping
failures; the first success yields the anchor index and balance. Returns the
block heights queried and the anchor, `none` when every query failed. -/
def anchorScan (oracle : Nat → Option Int) (layer : Layer) :
    List MessageMatch → Nat → List Nat × Option (Nat × Int)
  | [], _ => ([], none)
  | m :: rest, idx =>
    match oracle (blockOf layer m) with
    | some b => ([blockOf layer m], some (idx, b))
    | none =>
      let r := anchorScan oracle layer rest (idx + 1)
      (blockOf layer m :: r.1, r.2)

/-- The boundary indices the bisector's second loop actually processes:
`i` from `startIndex+1`, skipping any `i` whose record shares its block
number with the next record (defer to the block's last record). -/
def bisectBoundaries (layer : Layer) (msgs : List MessageMatch)
    (startIndex : Nat) : List Nat :=
  (List.range msgs.length).filter (fun i =>
    decide (startIndex + 1 ≤ i) &&
      (decide (i + 1 = msgs.length) ||
        decide (blockAt layer msgs i ≠ blockAt layer msgs (i + 1))))

/-- One mismatch report sent to the alerting collaborator
(`slack.MrkDwnETHGatewayMessage(messages[i], expected, actual)`); the
balances are `none` on the error return of `checkBalance`. -/
structure MismatchAlert where
  record : MessageMatch
  expected : Option Int
  actual : Option Int
deriving DecidableEq, Repr

/-- Observable outcome of the bisector: oracle queries made, aggregate
sub-checks run (anchor index, boundary index), alerts emitted, and whether
the Go code would dereference a nil anchor balance. -/
structure BisectorResult where
  queries : List Nat
  subChecks : List (Nat × Nat)
  alerts : List MismatchAlert
  nilDeref : Bool
deriving DecidableEq, Repr

/-- The second loop of `checkBlockBalanceOneByOne` over the processed
boundary indices: query the oracle at each boundary block (skip on failure),
then run `checkBalance` over `messages[startIndex:i+1]` from the anchor
balance, alerting on failure and continuing either way. An oracle success
with no anchor balance is the nil dereference of the Go code. -/
def bisectLoop (oracle : Nat → Option Int) (layer : Layer)
    (msgs : List MessageMatch) (anchor : Option Int) (startIndex : Nat) :
    List Nat → BisectorResult
  | [] => { queries := [], subChecks := [], alerts := [], nilDeref := false }
  | i :: rest =>
    match oracle (blockAt layer msgs i) with
    | none =>
      let t := bisectLoop oracle layer msgs anchor startIndex rest
      { t with queries := blockAt layer msgs i :: t.queries }
    | some endBal =>
      match anchor with
      | none =>
        { queries := [blockAt layer msgs i], subChecks := [], alerts := [],
          nilDeref := true }
      | some sb =>
        let t := bisectLoop oracle layer msgs anchor startIndex rest
        match checkBalance layer sb endBal
            ((msgs.drop startIndex).take (i + 1 - startIndex)) with
        | none =>
          { queries := blockAt layer msgs i :: t.queries,
            subChecks := (startIndex, i) :: t.subChecks,
            alerts := { record := msgs.getD i default, expected := none,
                        actual := none } :: t.alerts,
            nilDeref := t.nilDeref }
        | some (ok, exp, act) =>
          if ok then
            { queries := blockAt layer msgs i :: t.queries,
              subChecks := (startIndex, i) :: t.subChecks,
              alerts := t.alerts, nilDeref := t.nilDeref }
          else
            { queries := blockAt layer msgs i :: t.queries,
              subChecks := (startIndex, i) :: t.subChecks,
              alerts := { record := msgs.getD i default, expected := some exp,
                          actual := some act } :: t.alerts,
              nilDeref := t.nilDeref }

/-- `checkBlockBalanceOneByOne` from the source: anchor scan followed by the
boundary loop (with `startIndex = 0` and no anchor balance when every anchor
query failed, as in Go's zero values). -/
def checkBlockBalanceOneByOne (oracle : Nat → Option Int) (layer : Layer)
    (msgs : List MessageMatch) : BisectorResult :=
  let a := anchorScan oracle layer msgs 0
  match a.2 with
  | some (si, sb) =>
    let r := bisectLoop oracle layer msgs (some sb) si
      (bisectBoundaries layer msgs si)
    { r with queries := a.1 ++ r.queries }
  | none =>
    let r := bisectLoop oracle layer msgs none 0 (bisectBoundaries layer msgs 0)
    { r with queries := a.1 ++ r.queries }

/-- Observable outcome of one `checkETH` invocation: balance-at-height
queries made, the commit set handed to the Persistence Committer (`none`
when no commit is attempted), alerts, and the bisector's nil-dereference
flag. -/
structure CheckETHResult where
  oracleQueries : List Nat
  commits : Option (List BalanceUpdate)
  alerts : List MismatchAlert
  nilDeref : Bool
deriving DecidableEq, Repr

/-- `checkETH` from the source: on Layer1 with the window's end block more
than `ethBalanceGap` blocks behind the head, derive locally with no oracle
query; otherwise query the end-block balance (abort on failure), run the
aggregate `checkBalance` (abort on its error), and either derive-and-commit
on success or hand over to the bisector on mismatch. -/
def checkETH (oracle : Nat → Option Int) (layer : Layer)
    (endBlockNumber latestBlockNumber : Nat) (startBalance : Int)
    (messages : List MessageMatch) : CheckETHResult :=
  if layer = Layer.layer1 ∧ endBlockNumber + ethBalanceGap < latestBlockNumber then
    { oracleQueries := [],
      commits := computeBlockBalance layer messages startBalance,
      alerts := [], nilDeref := false }
  else
    match oracle endBlockNumber with
    | none =>
      { oracleQueries := [endBlockNumber], commits := none, alerts := [],
        nilDeref := false }
    | some endBalance =>
      match checkBalance layer startBalance endBalance messages with
      | none =>
        { oracleQueries := [endBlockNumber], commits := none, alerts := [],
          nilDeref := false }
      | some (ok, _, _) =>
        if ok then
          { oracleQueries := [endBlockNumber],
            commits := computeBlockBalance layer messages startBalance,
            alerts := [], nilDeref := false }
        else
          let r := checkBlockBalanceOneByOne oracle layer messages
          { oracleQueries := endBlockNumber :: r.queries, commits := none,
            alerts := r.alerts, nilDeref := r.nilDeref }

/-- The store after an invocation whose commit decision is `commits`: no
commit leaves the store untouched, a commit set goes through `runCommit`. -/
def applyCommits (layer : Layer) (fail : Nat → Bool) (s : List StoredRecord) :
    Option (List BalanceUpdate) → List StoredRecord
  | none => s
  | some us => runCommit layer fail s us

/-- The spec's delta rule written as a per-record case split:
`SentMessage` contributes `+amount`, `RelayedMessage` contributes
`-amount`, anything else `0`. -/
def specDelta (layer : Layer) (m : MessageMatch) (amount : Int) : Int :=
  if eventOf layer m = sentOf layer then amount
  else if eventOf layer m = relayedOf layer then -amount
  else 0

/-- The spec's aggregate sum `Σ(delta)` over a parsed window. -/
def specDiff (layer : Layer) (pairs : List (MessageMatch × Int)) : Int :=
  (pairs.map (fun p => specDelta layer p.1 p.2)).sum

/-- Scenario A record: `SentMessage` of 30 at Layer1 block 10. -/
def scA1 : MessageMatch :=
  { id := 1, l1EventType := L1SentMessage, l1BlockNumber := 10,
    l2EventType := 0, l2BlockNumber := 0, ethAmount := "30",
    ethAmountStatus := ETHAmountStatusTypeSet }

/-- Scenario A record: `RelayedMessage` of 20 at Layer1 block 12. -/
def scA2 : MessageMatch :=
  { id := 2, l1EventType := L1RelayedMessage, l1BlockNumber := 12,
    l2EventType := 0, l2BlockNumber := 0, ethAmount := "20",
    ethAmountStatus := ETHAmountStatusTypeSet }

/-- The Layer1 record of the status-write defect demonstration: `SentMessage`
of 30 at block 10. -/
def c1Record : MessageMatch :=
  { id := 1, l1EventType := L1SentMessage, l1BlockNumber := 10,
    l2EventType := 0, l2BlockNumber := 0, ethAmount := "30",
    ethAmountStatus := ETHAmountStatusTypeSet }

/-- A `SentMessage` of 30 sitting at Layer1 block number 0. -/
def c3Zero : MessageMatch :=
  { id := 1, l1EventType := L1SentMessage, l1BlockNumber := 0,
    l2EventType := 0, l2BlockNumber := 0, ethAmount := "30",
    ethAmountStatus := ETHAmountStatusTypeSet }

/-- Scenario C record: `SentMessage` of 30 at Layer1 block 10. -/
def scC1 : MessageMatch :=
  { id := 1, l1EventType := L1SentMessage, l1BlockNumber := 10,
    l2EventType := 0, l2BlockNumber := 0, ethAmount := "30",
    ethAmountStatus := ETHAmountStatusTypeSet }

/-- Scenario C record: `SentMessage` of 5 sharing Layer1 block 10. -/
def scC2 : MessageMatch :=
  { id := 2, l1EventType := L1SentMessage, l1BlockNumber := 10,
    l2EventType := 0, l2BlockNumber := 0, ethAmount := "5",
    ethAmountStatus := ETHAmountStatusTypeSet }

/-- A record in Layer1 block 10 with no Layer1 event kind set. -/
def c10Unset : MessageMatch :=
  { id := 2, l1EventType := 0, l1BlockNumber := 10,
    l2EventType := 0, l2BlockNumber := 0, ethAmount := "7",
    ethAmountStatus := ETHAmountStatusTypeSet }

/-- A `RelayedMessage` of 20 at Layer1 block 12 with id 3. -/
def c10Relayed : MessageMatch :=
  { id := 3, l1EventType := L1RelayedMessage, l1BlockNumber := 12,
    l2EventType := 0, l2BlockNumber := 0, ethAmount := "20",
    ethAmountStatus := ETHAmountStatusTypeSet }

/-- An unresolved record (amount status not `Set`) at Layer1 block number 0. -/
def c4Zero : MessageMatch :=
  { id := 1, l1EventType := 0, l1BlockNumber := 0,
    l2EventType := 0, l2BlockNumber := 0, ethAmount := "0",
    ethAmountStatus := 0 }

/-- A resolved `SentMessage` at Layer1 block 5, after the unresolved record. -/
def c4Later : MessageMatch :=
  { id := 2, l1EventType := L1SentMessage, l1BlockNumber := 5,
    l2EventType := 0, l2BlockNumber := 0, ethAmount := "30",
    ethAmountStatus := ETHAmountStatusTypeSet }

/-- A resolved `SentMessage` at Layer1 block 3, before the truncation point. -/
def c4Early : MessageMatch :=
  { id := 1, l1EventType := L1SentMessage, l1BlockNumber := 3,
    l2EventType := 0, l2BlockNumber := 0, ethAmount := "30",
    ethAmountStatus := ETHAmountStatusTypeSet }

/-- An unresolved record at Layer1 block 5. -/
def c4Unresolved : MessageMatch :=
  { id := 2, l1EventType := 0, l1BlockNumber := 5,
    l2EventType := 0, l2BlockNumber := 0, ethAmount := "0",
    ethAmountStatus := 0 }

/-- A stored row with both layers' statuses `Unchecked`. -/
def c6Row : StoredRecord :=
  { id := 1, l1BalanceCol := 0, l1StatusCol := 1,
    l2BalanceCol := 0, l2StatusCol := 1 }

/-- The row of `c6Row` as it stands after a successful commit of the update
`mkUpdate layer1 1 130`: both Layer1 columns received the balance 130. -/
def c6RowAfter : StoredRecord :=
  { id := 1, l1BalanceCol := 130, l1StatusCol := 130,
    l2BalanceCol := 0, l2StatusCol := 1 }

/-- An oracle that fails every balance query. -/
def noOracle : Nat → Option Int := fun _ => none

/-- The alert the bisector emits at one processed boundary index `i` (if
any): none when the oracle query fails or the sub-range check passes; the
boundary record with `none` balances on a `checkBalance` error; the boundary
record with the expected and actual balances on a mismatch. -/
def boundaryAlert (oracle : Nat → Option Int) (layer : Layer)
    (msgs : List MessageMatch) (sb : Int) (startIndex i : Nat) :
    Option MismatchAlert :=
  match oracle (blockAt layer msgs i) with
  | none => none
  | some endBal =>
    match checkBalance layer sb endBal
        ((msgs.drop startIndex).take (i + 1 - startIndex)) with
    | none =>
      some { record := msgs.getD i default, expected := none, actual := none }
    | some (ok, exp, act) =>
      if ok then none
      else some { record := msgs.getD i default, expected := some exp,
                  actual := some act }

/-- The Scenario-B oracle: balance 130 at block 10, 90 at block 12. -/
def oracleB : Nat → Option Int :=
  fun n => if n = 10 then some 130 else if n = 12 then some 90 else none

/-- The alert of the Scenario-B bisection: boundary record `scA2`, expected
140 (anchor balance 130 plus the sub-range deltas `+30 − 20`), actual 90. -/
def scBAlert : MismatchAlert :=
  { record := scA2, expected := some 140, actual := some 90 }

theorem sentOf_ne_relayedOf (layer : Layer) : sentOf layer ≠ relayedOf layer := by
  cases layer <;> decide

theorem signedDelta_eq_specDelta (layer : Layer) (m : MessageMatch) (a : Int) :
    signedDelta layer m a = specDelta layer m a := by
  unfold signedDelta specDelta
  by_cases hs : eventOf layer m = sentOf layer
  · have hr : ¬ eventOf layer m = relayedOf layer := by
      rw [hs]; exact sentOf_ne_relayedOf layer
    rw [if_pos hs, if_pos hs, if_neg hr]
    ring
  · rw [if_neg hs, if_neg hs]
    by_cases hr : eventOf layer m = relayedOf layer
    · rw [if_pos hr]
      ring
    · rw [if_neg hr]
      ring

theorem foldl_add_eq_sum (f : MessageMatch × Int → Int)
    (l : List (MessageMatch × Int)) (acc : Int) :
    l.foldl (fun a p => a + f p) acc = acc + (l.map f).sum := by
  induction l generalizing acc with
  | nil => simp
  | cons p rest ih =>
    simp only [List.foldl_cons, List.map_cons, List.sum_cons]
    rw [ih]
    ring

theorem balanceDiff_eq_specDiff (layer : Layer)
    (pairs : List (MessageMatch × Int)) :
    balanceDiff layer pairs = specDiff layer pairs := by
  unfold balanceDiff specDiff
  rw [foldl_add_eq_sum]
  simp only [zero_add, signedDelta_eq_specDelta]

theorem checkBalance_eq (layer : Layer) (startBalance endBalance : Int)
    (messages : List MessageMatch) (pairs : List (MessageMatch × Int))
    (h : parseAmounts messages = some pairs) :
    checkBalance layer startBalance endBalance messages =
      some (decide (startBalance + specDiff layer pairs = endBalance),
        startBalance + specDiff layer pairs, endBalance) := by
  simp only [checkBalance, h, balanceDiff_eq_specDiff]

/-- C2: for every window and start balance, the aggregate check computes
`expectedEnd = startBalance + Σ(delta)` with `SentMessage` on the checked
layer contributing `+amount` and `RelayedMessage` contributing `-amount`,
and returns valid if and only if `expectedEnd` equals the actual balance at
the window's end block. -/
theorem checkBalance_aggregate (layer : Layer) (startBalance endBalance : Int)
    (messages : List MessageMatch) (pairs : List (MessageMatch × Int))
    (h : parseAmounts messages = some pairs) :
    checkBalance layer startBalance endBalance messages =
      some (decide (startBalance + specDiff layer pairs = endBalance),
        startBalance + specDiff layer pairs, endBalance) ∧
    (checkBalance layer startBalance endBalance messages =
        some (true, startBalance + specDiff layer pairs, endBalance) ↔
      startBalance + specDiff layer pairs = endBalance) := by
  have he := checkBalance_eq layer startBalance endBalance messages pairs h
  refine ⟨he, ?_⟩
  rw [he]
  simp [decide_eq_true_eq]

theorem checkBalance_aggregate_witness :
    parseAmounts [scA1, scA2] = some [(scA1, 30), (scA2, 20)] ∧
    checkBalance Layer.layer1 100 110 [scA1, scA2] = some (true, 110, 110) := by
  have h : parseAmounts [scA1, scA2] = some [(scA1, 30), (scA2, 20)] := by decide
  refine ⟨h, ?_⟩
  have h2 := (checkBalance_aggregate Layer.layer1 100 110 [scA1, scA2]
    [(scA1, 30), (scA2, 20)] h).2.mpr (by decide)
  have h3 : (100 : Int) + specDiff Layer.layer1 [(scA1, 30), (scA2, 20)] = 110 := by
    decide
  rw [h3] at h2
  exact h2

/-- C1: the engine's derivation does set the in-memory status field to the
constant `Valid` with the derived balance 130, but the persistence path
(the ORM's `UpdateETHBalance`) writes the balance value 130 — not the
status constant `Valid` — into the balance-status column, so the persisted
status never receives `Valid`. -/
theorem updateETHBalance_writes_balance_into_status :
    computeBlockBalance Layer.layer1 [c1Record] 100 =
      some [mkUpdate Layer.layer1 1 130] ∧
    updateStatus Layer.layer1 (mkUpdate Layer.layer1 1 130) =
      ETHBalanceStatusTypeValid ∧
    (UpdateETHBalance Layer.layer1 (mkUpdate Layer.layer1 1 130)).statusCol = 130 ∧
    (UpdateETHBalance Layer.layer1 (mkUpdate Layer.layer1 1 130)).statusCol ≠
      (ETHBalanceStatusTypeValid : Int) := by
  decide

theorem mem_insertByID (b u : BalanceUpdate) (l : List BalanceUpdate) :
    b ∈ insertByID u l ↔ b = u ∨ b ∈ l := by
  induction l with
  | nil => simp [insertByID]
  | cons v vs ih =>
    by_cases hc : u.id < v.id
    · simp [insertByID, hc]
    · simp only [insertByID, hc, if_false, List.mem_cons, ih]
      tauto

theorem insertByID_pairwise (u : BalanceUpdate) (l : List BalanceUpdate)
    (h : l.Pairwise (fun a b => a.id ≤ b.id)) :
    (insertByID u l).Pairwise (fun a b => a.id ≤ b.id) := by
  induction l with
  | nil => simp [insertByID]
  | cons v vs ih =>
    rw [List.pairwise_cons] at h
    by_cases hc : u.id < v.id
    · simp only [insertByID, hc, if_true]
      refine List.Pairwise.cons ?_ (List.Pairwise.cons h.1 h.2)
      intro b hb
      rcases List.mem_cons.mp hb with rfl | hb2
      · exact Nat.le_of_lt hc
      · exact Nat.le_trans (Nat.le_of_lt hc) (h.1 b hb2)
    · have hv : v.id ≤ u.id := Nat.le_of_not_lt hc
      simp only [insertByID, hc, if_false]
      refine List.Pairwise.cons ?_ (ih h.2)
      intro b hb
      rcases (mem_insertByID b u vs).mp hb with rfl | hb2
      · exact hv
      · exact h.1 b hb2

theorem sortByID_pairwise (l : List BalanceUpdate) :
    (sortByID l).Pairwise (fun a b => a.id ≤ b.id) := by
  induction l with
  | nil => simp [sortByID]
  | cons u us ih => exact insertByID_pairwise u (sortByID us) ih

theorem mem_sortByID (b : BalanceUpdate) (l : List BalanceUpdate) :
    b ∈ sortByID l ↔ b ∈ l := by
  induction l with
  | nil => simp [sortByID]
  | cons u us ih =>
    simp only [sortByID, mem_insertByID, List.mem_cons, ih]

/-- C5: every commit set emitted by `computeBlockBalance` is sorted by record
id ascending, so inside the one transaction (which applies the list in
order) the update for a smaller id is applied no later than that for a
larger id. -/
theorem commit_set_sorted_by_id (layer : Layer) (messages : List MessageMatch)
    (startBalance : Int) (us : List BalanceUpdate)
    (h : computeBlockBalance layer messages startBalance = some us) :
    us.Pairwise (fun a b => a.id ≤ b.id) := by
  unfold computeBlockBalance at h
  cases hp : parseAmounts messages with
  | none => rw [hp] at h; exact absurd h (by simp)
  | some pairs =>
    rw [hp] at h
    have h2 := Option.some.inj h
    rw [← h2]
    exact sortByID_pairwise _

theorem commit_set_sorted_by_id_witness :
    computeBlockBalance Layer.layer1 [scA1, scA2] 100 =
      some [mkUpdate Layer.layer1 1 130, mkUpdate Layer.layer1 2 110] ∧
    List.Pairwise (fun a b => a.id ≤ b.id)
      [mkUpdate Layer.layer1 1 130, mkUpdate Layer.layer1 2 110] :=
  ⟨by decide, commit_set_sorted_by_id Layer.layer1 [scA1, scA2] 100 _ (by decide)⟩

theorem deltaSumLE_split (layer : Layer) (β b : Nat) (hlt : β < b) :
    ∀ l : List (MessageMatch × Int),
      (∀ p ∈ l, blockOf layer p.1 ≤ β ∨ b ≤ blockOf layer p.1) →
      deltaSumLE layer b l = deltaSumLE layer β l + blockNet layer b l := by
  intro l
  induction l with
  | nil => intro _; simp [deltaSumLE, blockNet]
  | cons p rest ih =>
    intro h
    have hd := h p (List.mem_cons_self p rest)
    have ht := ih (fun q hq => h q (List.mem_cons_of_mem p hq))
    simp only [deltaSumLE, blockNet]
    rw [ht]
    have hone : (if blockOf layer p.1 ≤ b then signedDelta layer p.1 p.2 else 0) =
        (if blockOf layer p.1 ≤ β then signedDelta layer p.1 p.2 else 0) +
          (if blockOf layer p.1 = b then signedDelta layer p.1 p.2 else 0) := by
      rcases hd with h1 | h1
      · rw [if_pos (Nat.le_trans h1 (Nat.le_of_lt hlt)), if_pos h1,
          if_neg (by omega)]
        ring
      · by_cases h2 : blockOf layer p.1 = b
        · rw [if_pos (by omega), if_neg (by omega), if_pos h2]
          ring
        · rw [if_neg (by omega), if_neg (by omega), if_neg h2]
          ring
    rw [hone]
    ring

theorem deltaSumLE_eq_LT_add_net (layer : Layer) (b : Nat) :
    ∀ l : List (MessageMatch × Int),
      deltaSumLE layer b l = deltaSumLT layer b l + blockNet layer b l := by
  intro l
  induction l with
  | nil => simp [deltaSumLE, deltaSumLT, blockNet]
  | cons p rest ih =>
    simp only [deltaSumLE, deltaSumLT, blockNet]
    rw [ih]
    have hone : (if blockOf layer p.1 ≤ b then signedDelta layer p.1 p.2 else 0) =
        (if blockOf layer p.1 < b then signedDelta layer p.1 p.2 else 0) +
          (if blockOf layer p.1 = b then signedDelta layer p.1 p.2 else 0) := by
      rcases Nat.lt_trichotomy (blockOf layer p.1) b with h1 | h1 | h1
      · rw [if_pos (Nat.le_of_lt h1), if_pos h1, if_neg (by omega)]
        ring
      · rw [if_pos (Nat.le_of_eq h1), if_neg (by omega), if_pos h1]
        ring
      · rw [if_neg (by omega), if_neg (by omega), if_neg (by omega)]
        ring
    rw [hone]
    ring

theorem deltaSumLE_zero (layer : Layer) :
    ∀ l : List (MessageMatch × Int),
      (∀ p ∈ l, 0 < blockOf layer p.1) → deltaSumLE layer 0 l = 0 := by
  intro l
  induction l with
  | nil => intro _; simp [deltaSumLE]
  | cons p rest ih =>
    intro h
    have hp := h p (List.mem_cons_self p rest)
    simp only [deltaSumLE]
    rw [if_neg (by omega), ih (fun q hq => h q (List.mem_cons_of_mem p hq))]
    ring

theorem parseAmounts_map_fst :
    ∀ (msgs : List MessageMatch) (pairs : List (MessageMatch × Int)),
      parseAmounts msgs = some pairs → pairs.map Prod.fst = msgs := by
  intro msgs
  induction msgs with
  | nil =>
    intro pairs h
    simp only [parseAmounts, Option.some.injEq] at h
    rw [← h]
    rfl
  | cons m rest ih =>
    intro pairs h
    simp only [parseAmounts] at h
    cases hs : setStringBase10 m.ethAmount with
    | none => rw [hs] at h; exact absurd h (by simp)
    | some a =>
      rw [hs] at h
      cases hp : parseAmounts rest with
      | none => rw [hp] at h; exact absurd h (by simp)
      | some ps =>
        rw [hp] at h
        simp only [Option.map_some', Option.some.injEq] at h
        rw [← h]
        simp only [List.map_cons]
        rw [ih ps hp]

theorem walkUpdates_eq_map (layer : Layer) (start : Int)
    (allPairs : List (MessageMatch × Int))
    (hsort : allPairs.Pairwise
      (fun p q => blockOf layer p.1 ≤ blockOf layer q.1)) :
    ∀ (rest pre : List (MessageMatch × Int)) (β : Nat) (bal : Int),
      allPairs = pre ++ rest →
      (∀ p ∈ pre, blockOf layer p.1 ≤ β) →
      (∀ p ∈ rest, β ≤ blockOf layer p.1) →
      bal = start + deltaSumLE layer β allPairs →
      walkUpdates layer allPairs rest bal β =
        rest.map (fun p =>
          mkUpdate layer p.1.id
            (start + deltaSumLE layer (blockOf layer p.1) allPairs)) := by
  intro rest
  induction rest with
  | nil => intro pre β bal _ _ _ _; rfl
  | cons p rest' ih =>
    intro pre β bal hsplit hpre hrest hbal
    have hβb : β ≤ blockOf layer p.1 := hrest p (List.mem_cons_self _ _)
    have hrest'le : ∀ q ∈ rest', blockOf layer p.1 ≤ blockOf layer q.1 := by
      have hall : (p :: rest').Pairwise
          (fun p q => blockOf layer p.1 ≤ blockOf layer q.1) := by
        have h2 := hsort
        rw [hsplit] at h2
        exact (List.pairwise_append.mp h2).2.1
      exact (List.pairwise_cons.mp hall).1
    have hbal' :
        (if blockOf layer p.1 ≠ β then
          bal + blockNet layer (blockOf layer p.1) allPairs else bal) =
          start + deltaSumLE layer (blockOf layer p.1) allPairs := by
      by_cases hb : blockOf layer p.1 = β
      · rw [if_neg (not_not_intro hb), hbal, hb]
      · rw [if_pos hb]
        have hblt : β < blockOf layer p.1 :=
          Nat.lt_of_le_of_ne hβb (fun hx => hb hx.symm)
        have hdich : ∀ q ∈ allPairs,
            blockOf layer q.1 ≤ β ∨ blockOf layer p.1 ≤ blockOf layer q.1 := by
          intro q hq
          rw [hsplit] at hq
          rcases List.mem_append.mp hq with hq1 | hq1
          · exact Or.inl (hpre q hq1)
          · rcases List.mem_cons.mp hq1 with rfl | hq2
            · exact Or.inr (Nat.le_refl _)
            · exact Or.inr (hrest'le q hq2)
        rw [hbal, deltaSumLE_split layer β _ hblt allPairs hdich]
        ring
    have hsplit' : allPairs = (pre ++ [p]) ++ rest' := by
      rw [hsplit]
      simp
    have hpre' : ∀ q ∈ pre ++ [p], blockOf layer q.1 ≤ blockOf layer p.1 := by
      intro q hq
      rcases List.mem_append.mp hq with hq1 | hq1
      · exact Nat.le_trans (hpre q hq1) hβb
      · rw [List.mem_singleton.mp hq1]
    have htail := ih (pre ++ [p]) (blockOf layer p.1)
      (start + deltaSumLE layer (blockOf layer p.1) allPairs)
      hsplit' hpre' hrest'le rfl
    simp only [walkUpdates, List.map_cons]
    rw [hbal', htail]

/-- The commit set of a sorted, positive-block window as an explicit map:
each record receives `start + Σ(deltas of blocks ≤ its block)`. -/
theorem computeBlockBalance_eq (layer : Layer) (msgs : List MessageMatch)
    (start : Int) (pairs : List (MessageMatch × Int))
    (hparse : parseAmounts msgs = some pairs)
    (hsort : msgs.Pairwise (fun a b => blockOf layer a ≤ blockOf layer b))
    (hpos : ∀ m ∈ msgs, 0 < blockOf layer m) :
    computeBlockBalance layer msgs start =
      some (sortByID (pairs.map (fun p =>
        mkUpdate layer p.1.id
          (start + deltaSumLE layer (blockOf layer p.1) pairs)))) := by
  have hfst := parseAmounts_map_fst msgs pairs hparse
  have hsortp : pairs.Pairwise
      (fun p q => blockOf layer p.1 ≤ blockOf layer q.1) := by
    rw [← hfst, List.pairwise_map] at hsort
    exact hsort
  have hpos' : ∀ p ∈ pairs, 0 < blockOf layer p.1 := by
    intro p hp
    exact hpos p.1 (by rw [← hfst]; exact List.mem_map_of_mem Prod.fst hp)
  have hzero : start = start + deltaSumLE layer 0 pairs := by
    rw [deltaSumLE_zero layer pairs hpos']
    ring
  simp only [computeBlockBalance, hparse]
  rw [walkUpdates_eq_map layer start pairs hsortp pairs [] 0 start
    (by simp) (by simp) (fun p _ => Nat.zero_le _) hzero]

/-- C3 counterexample: for a window whose record sits at block number 0, the
derivation assigns the start balance 100, not the claimed
`balance before the block + net delta = 130` — the walk's
`lastBlockNumber` seed 0 swallows block 0's delta. -/
theorem computeBlockBalance_block_zero_counterexample :
    computeBlockBalance Layer.layer1 [c3Zero] 100 =
      some [mkUpdate Layer.layer1 1 100] ∧
    100 + deltaSumLT Layer.layer1 (blockOf Layer.layer1 c3Zero)
        ((parseAmounts [c3Zero]).getD []) +
      blockNet Layer.layer1 (blockOf Layer.layer1 c3Zero)
        ((parseAmounts [c3Zero]).getD []) = (130 : Int) ∧
    (100 : Int) ≠ 130 := by
  decide

/-- C3 (amended): for every window sorted by block number whose block numbers
are all positive, per-block derivation assigns each record the running
balance `balance before its block + net signed delta of its block`, so all
records sharing one block receive an identical running balance; the commit
set is that assignment sorted by id. -/
theorem computeBlockBalance_running_balance (layer : Layer)
    (msgs : List MessageMatch) (start : Int)
    (pairs : List (MessageMatch × Int))
    (hparse : parseAmounts msgs = some pairs)
    (hsort : msgs.Pairwise (fun a b => blockOf layer a ≤ blockOf layer b))
    (hpos : ∀ m ∈ msgs, 0 < blockOf layer m) :
    computeBlockBalance layer msgs start =
      some (sortByID (pairs.map (fun p =>
        mkUpdate layer p.1.id
          (start + deltaSumLT layer (blockOf layer p.1) pairs +
            blockNet layer (blockOf layer p.1) pairs)))) ∧
    ∀ p ∈ pairs, ∀ q ∈ pairs,
      blockOf layer p.1 = blockOf layer q.1 →
      start + deltaSumLT layer (blockOf layer p.1) pairs +
          blockNet layer (blockOf layer p.1) pairs =
        start + deltaSumLT layer (blockOf layer q.1) pairs +
          blockNet layer (blockOf layer q.1) pairs := by
  constructor
  · rw [computeBlockBalance_eq layer msgs start pairs hparse hsort hpos]
    have hfun : (fun p : MessageMatch × Int =>
        mkUpdate layer p.1.id
          (start + deltaSumLE layer (blockOf layer p.1) pairs)) =
        (fun p : MessageMatch × Int =>
          mkUpdate layer p.1.id
            (start + deltaSumLT layer (blockOf layer p.1) pairs +
              blockNet layer (blockOf layer p.1) pairs)) := by
      funext p
      rw [deltaSumLE_eq_LT_add_net, ← add_assoc]
    rw [hfun]
  · intro p _ q _ hpq
    rw [hpq]

theorem computeBlockBalance_running_balance_witness :
    parseAmounts [scC1, scC2] = some [(scC1, 30), (scC2, 5)] ∧
    computeBlockBalance Layer.layer1 [scC1, scC2] 100 =
      some [mkUpdate Layer.layer1 1 135, mkUpdate Layer.layer1 2 135] := by
  refine ⟨by decide, ?_⟩
  have h := (computeBlockBalance_running_balance Layer.layer1 [scC1, scC2] 100
    [(scC1, 30), (scC2, 5)] (by decide) (by decide) (by decide)).1
  rw [h]
  decide

/-- C10: a record whose event kind on the checked layer is neither that
layer's `SentMessage` nor its `RelayedMessage` contributes a signed delta of
exactly 0 (the summand used by both the aggregate check and the per-block
map), yet when the window is derived it still receives its block's running
balance and enters the commit set with status `Valid`. -/
theorem unmatched_event_zero_delta_committed (layer : Layer)
    (msgs : List MessageMatch) (start : Int)
    (pairs : List (MessageMatch × Int)) (m : MessageMatch) (a : Int)
    (hparse : parseAmounts msgs = some pairs)
    (hsort : msgs.Pairwise (fun x y => blockOf layer x ≤ blockOf layer y))
    (hpos : ∀ m' ∈ msgs, 0 < blockOf layer m')
    (hmem : (m, a) ∈ pairs)
    (hsent : eventOf layer m ≠ sentOf layer)
    (hrel : eventOf layer m ≠ relayedOf layer) :
    signedDelta layer m a = 0 ∧
    ∀ us, computeBlockBalance layer msgs start = some us →
      mkUpdate layer m.id
          (start + deltaSumLE layer (blockOf layer m) pairs) ∈ us ∧
      updateStatus layer (mkUpdate layer m.id
          (start + deltaSumLE layer (blockOf layer m) pairs)) =
        ETHBalanceStatusTypeValid := by
  constructor
  · unfold signedDelta
    rw [if_neg hsent, if_neg hrel]
    ring
  · intro us hus
    rw [computeBlockBalance_eq layer msgs start pairs hparse hsort hpos] at hus
    have hus2 := Option.some.inj hus
    constructor
    · rw [← hus2, mem_sortByID]
      exact List.mem_map_of_mem
        (fun p => mkUpdate layer p.1.id
          (start + deltaSumLE layer (blockOf layer p.1) pairs)) hmem
    · cases layer <;> rfl

theorem unmatched_event_zero_delta_committed_witness :
    signedDelta Layer.layer1 c10Unset 7 = 0 ∧
    mkUpdate Layer.layer1 2 130 ∈
      [mkUpdate Layer.layer1 1 130, mkUpdate Layer.layer1 2 130,
        mkUpdate Layer.layer1 3 110] := by
  have h := unmatched_event_zero_delta_committed Layer.layer1
    [scC1, c10Unset, c10Relayed] 100
    [(scC1, 30), (c10Unset, 7), (c10Relayed, 20)] c10Unset 7
    (by decide) (by decide) (by decide) (by decide) (by decide) (by decide)
  have hus : computeBlockBalance Layer.layer1 [scC1, c10Unset, c10Relayed] 100 =
      some [mkUpdate Layer.layer1 1 130, mkUpdate Layer.layer1 2 130,
        mkUpdate Layer.layer1 3 110] := by decide
  have h2 := (h.2 _ hus).1
  have h3 : (100 : Int) + deltaSumLE Layer.layer1
      (blockOf Layer.layer1 c10Unset)
      [(scC1, 30), (c10Unset, 7), (c10Relayed, 20)] = 130 := by decide
  rw [h3] at h2
  exact ⟨h.1, h2⟩

theorem resolved_below_first_unresolved (layer : Layer) :
    ∀ (msgs : List MessageMatch) (f : MessageMatch),
      msgs.Pairwise (fun a b => blockOf layer a ≤ blockOf layer b) →
      firstUnresolved msgs = some f →
      ∀ r ∈ msgs, blockOf layer r < blockOf layer f →
        r.ethAmountStatus = ETHAmountStatusTypeSet := by
  intro msgs
  induction msgs with
  | nil =>
    intro f _ hf
    simp [firstUnresolved] at hf
  | cons h t ih =>
    intro f hsort hf r hr hlt
    by_cases hu : h.ethAmountStatus = ETHAmountStatusTypeSet
    · have hf2 : firstUnresolved t = some f := by
        unfold firstUnresolved at hf ⊢
        rwa [List.find?_cons_of_neg _ (by simp [hu])] at hf
      rcases List.mem_cons.mp hr with rfl | hr2
      · exact hu
      · exact ih f (List.pairwise_cons.mp hsort).2 hf2 r hr2 hlt
    · have hf2 : f = h := by
        unfold firstUnresolved at hf
        rw [List.find?_cons_of_pos _ (by simp [hu])] at hf
        exact (Option.some.inj hf).symm
      rcases List.mem_cons.mp hr with rfl | hr2
      · rw [hf2] at hlt
        exact absurd hlt (Nat.lt_irrefl _)
      · have hle := (List.pairwise_cons.mp hsort).1 r hr2
        rw [hf2] at hlt
        omega

/-- C4 counterexample: when the first unresolved record sits at block number
0, `truncateBlockNumber` is 0 and the code takes the "not need to truncate"
branch, returning every record — including the unresolved record itself and
a later block whose predecessor block is not resolved — instead of only
records strictly below the truncation point. -/
theorem truncation_block_zero_counterexample :
    firstUnresolved [c4Zero, c4Later] = some c4Zero ∧
    blockOf Layer.layer1 c4Zero = 0 ∧
    truncatedMessageMatches Layer.layer1 [c4Zero, c4Later] =
      [c4Zero, c4Later] ∧
    c4Later ∈ truncatedMessageMatches Layer.layer1 [c4Zero, c4Later] ∧
    ¬ blockOf Layer.layer1 c4Later < blockOf Layer.layer1 c4Zero := by
  decide

/-- C4 (amended): whenever the refetched span is sorted by block number and
its first unresolved record sits at a positive block number, the Window
Selector retains exactly the records with block number strictly below that
record's block, and hence every retained record's strictly lower-numbered
blocks are fully resolved. -/
theorem truncation_safety (layer : Layer) (msgs : List MessageMatch)
    (f : MessageMatch)
    (hsort : msgs.Pairwise (fun a b => blockOf layer a ≤ blockOf layer b))
    (hf : firstUnresolved msgs = some f)
    (hpos : 0 < blockOf layer f) :
    truncatedMessageMatches layer msgs =
      msgs.filter (fun m => blockOf layer m < blockOf layer f) ∧
    ∀ m ∈ truncatedMessageMatches layer msgs,
      blockOf layer m < blockOf layer f ∧
      ∀ r ∈ msgs, blockOf layer r < blockOf layer m →
        r.ethAmountStatus = ETHAmountStatusTypeSet := by
  have ht : truncateBlockNumberOf layer msgs = blockOf layer f := by
    simp [truncateBlockNumberOf, hf]
  have h1 : truncatedMessageMatches layer msgs =
      msgs.filter (fun m => blockOf layer m < blockOf layer f) := by
    unfold truncatedMessageMatches
    rw [ht, if_neg (by omega)]
  refine ⟨h1, ?_⟩
  intro m hm
  rw [h1] at hm
  have hlt : blockOf layer m < blockOf layer f := by
    have := List.of_mem_filter hm
    exact of_decide_eq_true this
  refine ⟨hlt, ?_⟩
  intro r hr hrm
  exact resolved_below_first_unresolved layer msgs f hsort hf r hr
    (Nat.lt_trans hrm hlt)

theorem truncation_safety_witness :
    firstUnresolved [c4Early, c4Unresolved] = some c4Unresolved ∧
    0 < blockOf Layer.layer1 c4Unresolved ∧
    truncatedMessageMatches Layer.layer1 [c4Early, c4Unresolved] =
      [c4Early] := by
  refine ⟨by decide, by decide, ?_⟩
  have h := (truncation_safety Layer.layer1 [c4Early, c4Unresolved]
    c4Unresolved (by decide) (by decide) (by decide)).1
  rw [h]
  decide

theorem txnLoop_all_ok (layer : Layer) (fail : Nat → Bool) :
    ∀ (us : List BalanceUpdate) (s : List StoredRecord),
      (∀ u ∈ us, fail u.id = false) →
      txnLoop layer fail s us =
        Except.ok (us.foldl (applyRowWrite layer) s) := by
  intro us
  induction us with
  | nil => intro s _; rfl
  | cons u us' ih =>
    intro s h
    have hu := h u (List.mem_cons_self u us')
    simp only [txnLoop, hu, Bool.false_eq_true, if_false, List.foldl_cons]
    exact ih (applyRowWrite layer s u)
      (fun v hv => h v (List.mem_cons_of_mem u hv))

theorem txnLoop_fails (layer : Layer) (fail : Nat → Bool) :
    ∀ (us : List BalanceUpdate) (s : List StoredRecord),
      (∃ u ∈ us, fail u.id = true) →
      txnLoop layer fail s us = Except.error () := by
  intro us
  induction us with
  | nil =>
    intro s h
    obtain ⟨u, hu, _⟩ := h
    exact absurd hu (List.not_mem_nil u)
  | cons u us' ih =>
    intro s h
    by_cases hu : fail u.id = true
    · simp only [txnLoop, hu, if_true]
    · have hu2 : fail u.id = false := by
        cases hfu : fail u.id
        · rfl
        · exact absurd hfu hu
      simp only [txnLoop, hu2, Bool.false_eq_true, if_false]
      obtain ⟨v, hv, hfv⟩ := h
      rcases List.mem_cons.mp hv with rfl | hv2
      · exact absurd hfv hu
      · exact ih (applyRowWrite layer s u) ⟨v, hv2, hfv⟩

/-- C6 (amended): committing is all-or-nothing — if any single row update in
the batch fails, the whole transaction rolls back and the store is returned
unchanged (every record keeps its previous status, i.e. stays `Unchecked`);
if none fails, every update in the batch is applied. (Per the C1 write-path
defect, a successful commit stores the balance value in the status column
rather than the constant `Valid`.) -/
theorem commit_atomic (layer : Layer) (fail : Nat → Bool)
    (s : List StoredRecord) (us : List BalanceUpdate) :
    ((∃ u ∈ us, fail u.id = true) → runCommit layer fail s us = s) ∧
    ((∀ u ∈ us, fail u.id = false) →
      runCommit layer fail s us = us.foldl (applyRowWrite layer) s) := by
  constructor
  · intro h
    unfold runCommit
    rw [txnLoop_fails layer fail us s h]
  · intro h
    unfold runCommit
    rw [txnLoop_all_ok layer fail us s h]

theorem commit_atomic_witness :
    (∃ u ∈ [mkUpdate Layer.layer1 1 130],
      (fun i => decide (i = 1)) u.id = true) ∧
    runCommit Layer.layer1 (fun i => decide (i = 1)) [c6Row]
      [mkUpdate Layer.layer1 1 130] = [c6Row] ∧
    (∀ u ∈ [mkUpdate Layer.layer1 1 130], (fun _ => false) u.id = false) ∧
    runCommit Layer.layer1 (fun _ => false) [c6Row]
      [mkUpdate Layer.layer1 1 130] =
      List.foldl (applyRowWrite Layer.layer1) [c6Row]
        [mkUpdate Layer.layer1 1 130] := by
  refine ⟨by decide, ?_, by decide, ?_⟩
  · exact (commit_atomic Layer.layer1 (fun i => decide (i = 1)) [c6Row]
      [mkUpdate Layer.layer1 1 130]).1 (by decide)
  · exact (commit_atomic Layer.layer1 (fun _ => false) [c6Row]
      [mkUpdate Layer.layer1 1 130]).2 (by decide)

/-- C6 counterexample: a fully successful commit does not leave the window
"marked `Valid`": the committed row's status column holds the balance value
130, which is neither the `Valid` constant nor `Unchecked` — the write path
stores the balance into the status column. -/
theorem commit_not_marked_valid_counterexample :
    runCommit Layer.layer1 (fun _ => false) [c6Row]
        [mkUpdate Layer.layer1 1 130] = [c6RowAfter] ∧
    c6RowAfter.l1StatusCol ≠ (ETHBalanceStatusTypeValid : Nat) ∧
    c6RowAfter.l1StatusCol ≠ (ETHBalanceStatusTypeInvalid : Nat) := by
  decide

/-- C7: for Layer1 (the pruning-sensitive layer), whenever
`endBlock + 50 < latestBlock`, `checkETH` performs no balance-at-height
query at all and hands the window straight to per-block derivation from the
already-validated start balance. -/
theorem stale_block_bypass (oracle : Nat → Option Int) (layer : Layer)
    (endBlockNumber latestBlockNumber : Nat) (startBalance : Int)
    (messages : List MessageMatch)
    (h1 : layer = Layer.layer1)
    (h2 : endBlockNumber + ethBalanceGap < latestBlockNumber) :
    checkETH oracle layer endBlockNumber latestBlockNumber startBalance
        messages =
      { oracleQueries := [],
        commits := computeBlockBalance layer messages startBalance,
        alerts := [], nilDeref := false } := by
  subst h1
  unfold checkETH
  rw [if_pos ⟨rfl, h2⟩]

theorem stale_block_bypass_witness :
    (10 : Nat) + ethBalanceGap < 100 ∧
    checkETH noOracle Layer.layer1 10 100 100 [scA1, scA2] =
      { oracleQueries := [],
        commits := some [mkUpdate Layer.layer1 1 130, mkUpdate Layer.layer1 2 110],
        alerts := [], nilDeref := false } := by
  refine ⟨by decide, ?_⟩
  rw [stale_block_bypass noOracle Layer.layer1 10 100 100 [scA1, scA2] rfl
    (by decide)]
  decide

theorem anchorScan_all_fail (oracle : Nat → Option Int) (layer : Layer) :
    ∀ (l : List MessageMatch) (idx : Nat),
      (∀ m ∈ l, oracle (blockOf layer m) = none) →
      anchorScan oracle layer l idx = (l.map (blockOf layer), none) := by
  intro l
  induction l with
  | nil => intro idx _; rfl
  | cons m rest ih =>
    intro idx h
    have hm := h m (List.mem_cons_self m rest)
    simp only [anchorScan, hm, List.map_cons]
    rw [ih (idx + 1) (fun q hq => h q (List.mem_cons_of_mem m hq))]

theorem bisectLoop_all_fail (oracle : Nat → Option Int) (layer : Layer)
    (msgs : List MessageMatch) (anchor : Option Int) (startIndex : Nat) :
    ∀ L : List Nat,
      (∀ i ∈ L, oracle (blockAt layer msgs i) = none) →
      bisectLoop oracle layer msgs anchor startIndex L =
        { queries := L.map (blockAt layer msgs), subChecks := [],
          alerts := [], nilDeref := false } := by
  intro L
  induction L with
  | nil => intro _; rfl
  | cons i rest ih =>
    intro h
    have hi := h i (List.mem_cons_self i rest)
    simp only [bisectLoop, hi, List.map_cons]
    rw [ih (fun j hj => h j (List.mem_cons_of_mem i hj))]

theorem mem_bisectBoundaries_lt (layer : Layer) (msgs : List MessageMatch)
    (startIndex : Nat) : ∀ i ∈ bisectBoundaries layer msgs startIndex,
      i < msgs.length := by
  intro i hi
  have h2 := List.mem_filter.mp hi
  exact List.mem_range.mp h2.1

theorem getD_default_mem (msgs : List MessageMatch) (i : Nat)
    (h : i < msgs.length) : msgs.getD i default ∈ msgs := by
  rw [List.getD_eq_get msgs default h]
  exact List.get_mem msgs i h

/-- C9: for a window of at least two records, if every oracle balance query
made during the anchor-selection scan fails (the oracle fails on every
record's block), the bisector performs no sub-range aggregate check at all,
and in particular never reaches the balance arithmetic with the absent
(nil) anchor balance. -/
theorem bisector_no_check_when_all_queries_fail (oracle : Nat → Option Int)
    (layer : Layer) (msgs : List MessageMatch)
    (hlen : 2 ≤ msgs.length)
    (hfail : ∀ m ∈ msgs, oracle (blockOf layer m) = none) :
    (checkBlockBalanceOneByOne oracle layer msgs).subChecks = [] ∧
    (checkBlockBalanceOneByOne oracle layer msgs).nilDeref = false := by
  have hA := anchorScan_all_fail oracle layer msgs 0 hfail
  have hB : ∀ i ∈ bisectBoundaries layer msgs 0,
      oracle (blockAt layer msgs i) = none := by
    intro i hi
    exact hfail _ (getD_default_mem msgs i
      (mem_bisectBoundaries_lt layer msgs 0 i hi))
  have hL := bisectLoop_all_fail oracle layer msgs none 0
    (bisectBoundaries layer msgs 0) hB
  simp only [checkBlockBalanceOneByOne, hA, hL]
  exact ⟨trivial, trivial⟩

theorem bisector_no_check_when_all_queries_fail_witness :
    2 ≤ ([scA1, scA2] : List MessageMatch).length ∧
    (∀ m ∈ ([scA1, scA2] : List MessageMatch),
      noOracle (blockOf Layer.layer1 m) = none) ∧
    (checkBlockBalanceOneByOne noOracle Layer.layer1 [scA1, scA2]).subChecks
      = [] ∧
    (checkBlockBalanceOneByOne noOracle Layer.layer1 [scA1, scA2]).nilDeref
      = false := by
  refine ⟨by decide, by decide, ?_⟩
  exact bisector_no_check_when_all_queries_fail noOracle Layer.layer1
    [scA1, scA2] (by decide) (by decide)

theorem bisectLoop_alerts (oracle : Nat → Option Int) (layer : Layer)
    (msgs : List MessageMatch) (sb : Int) (startIndex : Nat) :
    ∀ L : List Nat,
      (bisectLoop oracle layer msgs (some sb) startIndex L).alerts =
        L.filterMap (boundaryAlert oracle layer msgs sb startIndex) ∧
      (bisectLoop oracle layer msgs (some sb) startIndex L).nilDeref =
        false := by
  intro L
  induction L with
  | nil => exact ⟨rfl, rfl⟩
  | cons i rest ih =>
    simp only [bisectLoop, List.filterMap_cons, boundaryAlert]
    cases ho : oracle (blockAt layer msgs i) with
    | none => exact ih
    | some endBal =>
      cases hc : checkBalance layer sb endBal
          ((msgs.drop startIndex).take (i + 1 - startIndex)) with
      | none =>
        simp only [hc]
        simpa using ih
      | some r =>
        rcases r with ⟨ok, exp, act⟩
        cases ok with
        | true =>
          simp only [hc]
          simpa using ih
        | false =>
          simp only [hc]
          simpa using ih

/-- C8: when the whole-window aggregate check fails, the engine attempts no
commit (the store is left unchanged for any store and failure model), hands
the window to the bisector, and the alerts emitted are exactly one per
processed boundary whose sub-range check fails — scanning continues past
every mismatch rather than halting, and each alert carries the boundary
record with the expected and actual balances. -/
theorem mismatch_reports_no_commit (oracle : Nat → Option Int) (layer : Layer)
    (endBlockNumber latestBlockNumber : Nat) (startBalance : Int)
    (messages : List MessageMatch) (endBal e a : Int)
    (fail : Nat → Bool) (store : List StoredRecord)
    (hslow : ¬ (layer = Layer.layer1 ∧
      endBlockNumber + ethBalanceGap < latestBlockNumber))
    (hq : oracle endBlockNumber = some endBal)
    (hfail : checkBalance layer startBalance endBal messages =
      some (false, e, a)) :
    (checkETH oracle layer endBlockNumber latestBlockNumber startBalance
      messages).commits = none ∧
    applyCommits layer fail store
      (checkETH oracle layer endBlockNumber latestBlockNumber startBalance
        messages).commits = store ∧
    (checkETH oracle layer endBlockNumber latestBlockNumber startBalance
      messages).alerts =
      (checkBlockBalanceOneByOne oracle layer messages).alerts ∧
    (∀ aq si sb, anchorScan oracle layer messages 0 = (aq, some (si, sb)) →
      (checkETH oracle layer endBlockNumber latestBlockNumber startBalance
        messages).alerts =
        (bisectBoundaries layer messages si).filterMap
          (boundaryAlert oracle layer messages sb si)) := by
  have hrun : checkETH oracle layer endBlockNumber latestBlockNumber
      startBalance messages =
      { oracleQueries := endBlockNumber ::
          (checkBlockBalanceOneByOne oracle layer messages).queries,
        commits := none,
        alerts := (checkBlockBalanceOneByOne oracle layer messages).alerts,
        nilDeref :=
          (checkBlockBalanceOneByOne oracle layer messages).nilDeref } := by
    unfold checkETH
    rw [if_neg hslow]
    simp only [hq, hfail, Bool.false_eq_true, if_false]
  refine ⟨by rw [hrun], by rw [hrun]; rfl, by rw [hrun], ?_⟩
  intro aq si sb hA
  rw [hrun]
  simp only [checkBlockBalanceOneByOne, hA]
  exact (bisectLoop_alerts oracle layer messages sb si
    (bisectBoundaries layer messages si)).1

theorem mismatch_reports_no_commit_witness :
    oracleB 12 = some 90 ∧
    checkBalance Layer.layer1 100 90 [scA1, scA2] = some (false, 110, 90) ∧
    (checkETH oracleB Layer.layer1 12 13 100 [scA1, scA2]).commits = none ∧
    (checkETH oracleB Layer.layer1 12 13 100 [scA1, scA2]).alerts =
      [scBAlert] := by
  have h := mismatch_reports_no_commit oracleB Layer.layer1 12 13 100
    [scA1, scA2] 90 110 90 (fun _ => false) [] (by decide) (by decide)
    (by decide)
  refine ⟨by decide, by decide, h.1, ?_⟩
  have h4 := h.2.2.2 [10] 0 130 (by decide)
  rw [h4]
  decide

end ChainMonitor
